import Mathlib

/-!
Shallow embedding of the ERC-8004 feedback-authorization core
(`ReputationClient` and the `EthersAdapter` signing boundary from the
repository's reputation client module), together with proofs about the
canonical encoding, digest, envelope construction and submission flow.

Conventions of the embedding:
* byte strings are `List ℕ`, each entry < 256;
* JavaScript `bigint` values are `ℤ`;
* a 20-byte address string is represented by its numeric value (`ℤ`);
  a malformed address is any value outside `[0, 2^160)`;
* the JavaScript `number` score is `ℚ` (exact comparisons, may be
  non-integral);
* fallible operations return `Except String`;
* each client operation also returns the list of adapter-boundary
  events (contract reads, contract writes, signing requests) it issued,
  so that claims about "no network interaction" are statable.
-/

set_option maxRecDepth 8000

namespace ERC8004

/-- `beBytes n v` is the `n`-byte big-endian representation of `v % 256^n`,
the layout a single static ABI slot uses. -/
def beBytes : ℕ → ℕ → List ℕ
  | 0, _ => []
  | n + 1, v => (v / 256 ^ n) % 256 :: beBytes n v

/-- The static ABI types appearing in the feedbackAuth tuple. -/
inductive AbiType where
  | uint256
  | uint64
  | address
deriving DecidableEq

/-- One 32-byte static ABI slot for a value of the given type, or `none`
when the value is outside the type's range (ethers' `AbiCoder.encode`
throws in that case). Addresses occupy the low 20 bytes of their slot. -/
def abiWord : AbiType → ℤ → Option (List ℕ)
  | .uint256, v => if 0 ≤ v ∧ v < 2 ^ 256 then some (beBytes 32 v.toNat) else none
  | .uint64, v => if 0 ≤ v ∧ v < 2 ^ 64 then some (beBytes 32 v.toNat) else none
  | .address, v => if 0 ≤ v ∧ v < 2 ^ 160 then some (beBytes 32 v.toNat) else none

/-- The slots of a typed value list, or `none` as soon as one value is out
of range for its declared type. -/
def abiWords : List (AbiType × ℤ) → Option (List (List ℕ))
  | [] => some []
  | f :: rest =>
    match abiWord f.1 f.2, abiWords rest with
    | some w, some ws => some (w :: ws)
    | _, _ => none

/-- `ethers.AbiCoder.defaultAbiCoder().encode(types, values)` restricted to
the static types above: every field is validated against its type and the
32-byte slots are concatenated; any out-of-range value makes the whole
encoding throw. -/
def abiEncode (fields : List (AbiType × ℤ)) : Except String (List ℕ) :=
  match abiWords fields with
  | some words => .ok words.flatten
  | none => .error "value out-of-bounds"

/-- The `FeedbackAuth` structure of the SDK's type definitions:
tuple (agentId, clientAddress, indexLimit, expiry, chainId,
identityRegistry, signerAddress). -/
structure FeedbackAuth where
  agentId : ℤ
  clientAddress : ℤ
  indexLimit : ℤ
  expiry : ℤ
  chainId : ℤ
  identityRegistry : ℤ
  signerAddress : ℤ
deriving DecidableEq

/-- The exact encoding call of `ReputationClient.signFeedbackAuth`:
types `['uint256','address','uint256','uint256','uint256','address','address']`
applied to the seven record fields in order. -/
def encodeFeedbackAuth (auth : FeedbackAuth) : Except String (List ℕ) :=
  abiEncode
    [(.uint256, auth.agentId), (.address, auth.clientAddress),
     (.uint256, auth.indexLimit), (.uint256, auth.expiry),
     (.uint256, auth.chainId), (.address, auth.identityRegistry),
     (.address, auth.signerAddress)]

/-- Modelled from the spec: the wire format of section 6 declares the third
slot as `uint64 indexLimit`; this encoder follows the spec's tuple
`(uint256, address, uint64, uint256, uint256, address, address)` so it can
be compared with the encoder the code actually uses. -/
def encodeFeedbackAuthU64 (auth : FeedbackAuth) : Except String (List ℕ) :=
  abiEncode
    [(.uint256, auth.agentId), (.address, auth.clientAddress),
     (.uint64, auth.indexLimit), (.uint256, auth.expiry),
     (.uint256, auth.chainId), (.address, auth.identityRegistry),
     (.address, auth.signerAddress)]

/-- Range conditions under which ethers accepts all seven fields of the
tuple as typed by the code (`uint256` for the integers, `address` for the
three account fields). -/
def FeedbackAuth.wellFormed (auth : FeedbackAuth) : Prop :=
  (0 ≤ auth.agentId ∧ auth.agentId < 2 ^ 256) ∧
  (0 ≤ auth.clientAddress ∧ auth.clientAddress < 2 ^ 160) ∧
  (0 ≤ auth.indexLimit ∧ auth.indexLimit < 2 ^ 256) ∧
  (0 ≤ auth.expiry ∧ auth.expiry < 2 ^ 256) ∧
  (0 ≤ auth.chainId ∧ auth.chainId < 2 ^ 256) ∧
  (0 ≤ auth.identityRegistry ∧ auth.identityRegistry < 2 ^ 160) ∧
  (0 ≤ auth.signerAddress ∧ auth.signerAddress < 2 ^ 160)

instance (auth : FeedbackAuth) : Decidable auth.wellFormed := by
  unfold FeedbackAuth.wellFormed; infer_instance

/-- The concatenation of the seven 32-byte slots of a well-formed record. -/
def encBytes (auth : FeedbackAuth) : List ℕ :=
  beBytes 32 auth.agentId.toNat ++ beBytes 32 auth.clientAddress.toNat ++
  beBytes 32 auth.indexLimit.toNat ++ beBytes 32 auth.expiry.toNat ++
  beBytes 32 auth.chainId.toNat ++ beBytes 32 auth.identityRegistry.toNat ++
  beBytes 32 auth.signerAddress.toNat

theorem beBytes_length (n v : ℕ) : (beBytes n v).length = n := by
  induction n generalizing v with
  | zero => rfl
  | succ n ih => simp [beBytes, ih]

theorem beBytes_mod_eq {n v w : ℕ} (h : beBytes n v = beBytes n w) :
    v % 256 ^ n = w % 256 ^ n := by
  induction n with
  | zero => simp [Nat.mod_one]
  | succ n ih =>
    simp only [beBytes, List.cons.injEq] at h
    have hmod := ih h.2
    have hv : v % 256 ^ (n + 1) = v % 256 ^ n + 256 ^ n * (v / 256 ^ n % 256) := by
      rw [pow_succ, Nat.mod_mul]
    have hw : w % 256 ^ (n + 1) = w % 256 ^ n + 256 ^ n * (w / 256 ^ n % 256) := by
      rw [pow_succ, Nat.mod_mul]
    rw [hv, hw, hmod, h.1]

theorem beBytes_inj {n v w : ℕ} (hv : v < 256 ^ n) (hw : w < 256 ^ n)
    (h : beBytes n v = beBytes n w) : v = w := by
  have := beBytes_mod_eq h
  rwa [Nat.mod_eq_of_lt hv, Nat.mod_eq_of_lt hw] at this

theorem abiWord_uint256_eq {v : ℤ} (h0 : 0 ≤ v) (h1 : v < 2 ^ 256) :
    abiWord .uint256 v = some (beBytes 32 v.toNat) := if_pos ⟨h0, h1⟩

theorem abiWord_uint64_eq {v : ℤ} (h0 : 0 ≤ v) (h1 : v < 2 ^ 64) :
    abiWord .uint64 v = some (beBytes 32 v.toNat) := if_pos ⟨h0, h1⟩

theorem abiWord_address_eq {v : ℤ} (h0 : 0 ≤ v) (h1 : v < 2 ^ 160) :
    abiWord .address v = some (beBytes 32 v.toNat) := if_pos ⟨h0, h1⟩

theorem abiWord_uint64_eq_uint256 {v : ℤ} (h0 : 0 ≤ v) (h1 : v < 2 ^ 64) :
    abiWord .uint64 v = abiWord .uint256 v := by
  have h256 : v < 2 ^ 256 := lt_of_lt_of_le h1 (by norm_num)
  rw [abiWord_uint64_eq h0 h1, abiWord_uint256_eq h0 h256]

theorem encodeFeedbackAuth_eq_ok (auth : FeedbackAuth) (h : auth.wellFormed) :
    encodeFeedbackAuth auth = .ok (encBytes auth) := by
  obtain ⟨⟨h1a, h1b⟩, ⟨h2a, h2b⟩, ⟨h3a, h3b⟩, ⟨h4a, h4b⟩, ⟨h5a, h5b⟩, ⟨h6a, h6b⟩,
    ⟨h7a, h7b⟩⟩ := h
  simp only [encodeFeedbackAuth, abiEncode, abiWords,
    abiWord_uint256_eq h1a h1b, abiWord_address_eq h2a h2b, abiWord_uint256_eq h3a h3b,
    abiWord_uint256_eq h4a h4b, abiWord_uint256_eq h5a h5b, abiWord_address_eq h6a h6b,
    abiWord_address_eq h7a h7b]
  simp [encBytes]

theorem encBytes_length (auth : FeedbackAuth) : (encBytes auth).length = 224 := by
  simp [encBytes, beBytes_length]

/-- 64-bit truncation. -/
def mask64 (v : ℕ) : ℕ := v % 2 ^ 64

/-- Left-rotation of a 64-bit lane. -/
def rotl64 (v r : ℕ) : ℕ :=
  mask64 ((v <<< (r % 64)) ||| (v >>> (64 - r % 64)))

/-- One step of the degree-8 LFSR from the Keccak specification, used to
generate the round-constant bits. -/
def lfsr (r : ℕ) : ℕ :=
  let r2 := r <<< 1
  if r2 < 256 then r2 else (r2 ^^^ 0x71) % 256

/-- Bit `rc(t)` of the Keccak round-constant sequence. -/
def rcBit (t : ℕ) : ℕ :=
  (Nat.iterate lfsr t 1) % 2

/-- The 24 round constants of Keccak-f[1600]: constant `ir` has bit
`rc(7*ir + j)` at position `2^j - 1` for `j = 0..6`. -/
def keccakRC : List ℕ :=
  (List.range 24).map fun ir =>
    (List.range 7).foldl (fun acc j => acc + rcBit (7 * ir + j) * 2 ^ (2 ^ j - 1)) 0

/-- The walk of the rho step: starting from lane (1,0) and stepping
`(x, y) ↦ (y, 2x+3y mod 5)`, lane `x + 5*y` gets rotation
`(t+1)(t+2)/2 mod 64` at step `t`. -/
def rhoWalk : List (ℕ × ℕ) :=
  ((List.range 24).foldl
    (fun st t =>
      let x := st.1.1
      let y := st.1.2
      ((y, (2 * x + 3 * y) % 5), (x + 5 * y, (t + 1) * (t + 2) / 2 % 64) :: st.2))
    ((1, 0), [])).2

/-- Rotation offsets of the rho step, indexed `x + 5 * y`. -/
def rhoOffsets : List ℕ :=
  (List.range 25).map fun i => (rhoWalk.lookup i).getD 0

/-- The state is a list of 25 lanes; `lane s x y` reads `A[x, y]`. -/
def lane (s : List ℕ) (x y : ℕ) : ℕ := s.getD (x % 5 + 5 * (y % 5)) 0

def theta (s : List ℕ) : List ℕ :=
  let c := fun x => (lane s x 0).xor ((lane s x 1).xor ((lane s x 2).xor
    ((lane s x 3).xor (lane s x 4))))
  let d := fun x => (c ((x + 4) % 5)).xor (rotl64 (c ((x + 1) % 5)) 1)
  (List.range 25).map fun i => (s.getD i 0).xor (d (i % 5))

def rhoPi (s : List ℕ) : List ℕ :=
  (List.range 25).map fun i =>
    let x := i % 5
    let y := i / 5
    let sx := (x + 3 * y) % 5
    rotl64 (lane s sx x) (rhoOffsets.getD (sx + 5 * x) 0)

def chi (s : List ℕ) : List ℕ :=
  (List.range 25).map fun i =>
    let x := i % 5
    let y := i / 5
    (lane s x y).xor (Nat.land ((lane s (x + 1) y).xor (2 ^ 64 - 1)) (lane s (x + 2) y))

def iotaStep (rc : ℕ) (s : List ℕ) : List ℕ :=
  match s with
  | [] => []
  | a :: rest => a.xor rc :: rest

/-- The Keccak-f[1600] permutation: 24 rounds of theta, rho+pi, chi, iota. -/
def keccakF (s : List ℕ) : List ℕ :=
  keccakRC.foldl (fun st rc => iotaStep rc (chi (rhoPi (theta st)))) s

/-- Multi-rate padding for rate 136 (Keccak-256 as used by Ethereum:
domain byte 0x01, final bit 0x80). -/
def keccakPad (msg : List ℕ) : List ℕ :=
  let padLen := 136 - msg.length % 136
  if padLen = 1 then msg ++ [0x81]
  else msg ++ [0x01] ++ List.replicate (padLen - 2) 0 ++ [0x80]

/-- A lane from 8 little-endian bytes. -/
def leLane (bytes : List ℕ) : ℕ :=
  bytes.foldr (fun b acc => acc * 256 + b) 0

/-- XOR one 136-byte block into the first 17 lanes and permute. -/
def absorbBlock (s block : List ℕ) : List ℕ :=
  keccakF ((List.range 25).map fun i =>
    (s.getD i 0).xor (if i < 17 then leLane ((block.drop (8 * i)).take 8) else 0))

/-- Split a padded message into `n` blocks of 136 bytes. -/
def blocks136 : ℕ → List ℕ → List (List ℕ)
  | 0, _ => []
  | n + 1, msg => msg.take 136 :: blocks136 n (msg.drop 136)

/-- `ethers.keccak256` on a byte string: pad, absorb all blocks, and
squeeze the first 32 bytes of the final state (lanes little-endian).
Checked against the standard test vectors for the empty string, "abc"
and two-block messages. -/
def keccak256 (msg : List ℕ) : List ℕ :=
  let padded := keccakPad msg
  let final := (blocks136 (padded.length / 136) padded).foldl absorbBlock
    (List.replicate 25 0)
  (List.range 32).map fun i => final.getD (i / 8) 0 / 256 ^ (i % 8) % 256

theorem keccak256_length (msg : List ℕ) : (keccak256 msg).length = 32 := by
  simp [keccak256]

/-- UTF-8 bytes of a string (`ethers.toUtf8Bytes`). -/
def utf8Bytes (s : String) : List ℕ :=
  s.toUTF8.toList.map (fun b => b.toNat)

/-- The EIP-191 personal-message envelope a signer hashes:
"\x19Ethereum Signed Message:\n" followed by the decimal byte length and
the message bytes. `ethers.Signer.signMessage` applies this prefix before
the underlying ECDSA primitive. -/
def eip191Bytes (message : List ℕ) : List ℕ :=
  utf8Bytes "\x19Ethereum Signed Message:\n" ++ utf8Bytes (toString message.length) ++
    message

/-- `ethers.id s` truncated with `.slice(0, 66)`: the full keccak-256 hash
of the UTF-8 bytes of `s` (the slice keeps all 32 bytes). -/
def ethersId (s : String) : List ℕ := keccak256 (utf8Bytes s)

/-- `ethers.ZeroHash` as bytes. -/
def zeroHash : List ℕ := List.replicate 32 0

/-- Result of `adapter.send` (`ContractCallResult`), reduced to the parts
the reputation client reads. -/
structure ContractCallResult where
  txHash : String
  blockNumber : ℤ
deriving DecidableEq

/-- What `giveFeedback` returns: `{ txHash: result.txHash }`. -/
structure TxRef where
  txHash : String
deriving DecidableEq

/-- An argument passed through the adapter boundary. -/
inductive EthArg where
  | int (v : ℤ)
  | num (v : ℚ)
  | str (s : String)
  | bytes (b : List ℕ)
  | addr (a : ℤ)
deriving DecidableEq

/-- One interaction with the adapter boundary: a contract read, a contract
write, or a personal-message signing request. -/
inductive AdapterEvent where
  | call (contractAddress : ℤ) (functionName : String) (args : List EthArg)
  | send (contractAddress : ℤ) (functionName : String) (args : List EthArg)
  | signMessage (message : List ℕ)
deriving DecidableEq

/-- `EthersAdapter`: a provider plus an optional signer. `rawSign` is the
underlying signer's ECDSA primitive over the EIP-191-prefixed message, and
`callResponse` / `sendResponse` are the environments answering contract
reads and writes; all three are injected, opaque capabilities. -/
structure EthersAdapter where
  hasSigner : Bool
  rawSign : List ℕ → List ℕ
  callResponse : ℤ → String → List EthArg → ℤ
  sendResponse : ℤ → String → List EthArg → ContractCallResult

/-- `EthersAdapter.signMessage`: throws when no signer is configured,
otherwise delegates to the signer's personal-message signing (which
EIP-191-prefixes the message before signing). -/
def EthersAdapter.signMessage (a : EthersAdapter) (message : List ℕ) :
    Except String (List ℕ) :=
  if a.hasSigner then .ok (a.rawSign (eip191Bytes message))
  else .error "Signer required for signing"

/-- `EthersAdapter.send`: throws when no signer is configured, otherwise
submits the transaction and returns its receipt data. -/
def EthersAdapter.send (a : EthersAdapter) (contractAddress : ℤ)
    (functionName : String) (args : List EthArg) : Except String ContractCallResult :=
  if a.hasSigner then .ok (a.sendResponse contractAddress functionName args)
  else .error "Signer required for write operations"

/-- `EthersAdapter.call`: a read-only contract call (no signer needed);
only the integer-valued reads used by the reputation client are modelled. -/
def EthersAdapter.call (a : EthersAdapter) (contractAddress : ℤ)
    (functionName : String) (args : List EthArg) : ℤ :=
  a.callResponse contractAddress functionName args

/-- `ReputationClient`: constructed from an adapter, the reputation
registry address and the identity registry address. -/
structure ReputationClient where
  adapter : EthersAdapter
  contractAddress : ℤ
  identityRegistryAddress : ℤ

/-- `ReputationClient.createFeedbackAuth`: builds the record from the six
arguments, filling `identityRegistry` from the client's constructor
state. -/
def ReputationClient.createFeedbackAuth (c : ReputationClient) (agentId : ℤ)
    (clientAddress : ℤ) (indexLimit : ℤ) (expiry : ℤ) (chainId : ℤ)
    (signerAddress : ℤ) : FeedbackAuth :=
  ⟨agentId, clientAddress, indexLimit, expiry, chainId,
   c.identityRegistryAddress, signerAddress⟩

/-- `ReputationClient.signFeedbackAuth`: ABI-encode the tuple, keccak-256
it, sign the digest bytes through the adapter, and return the encoded
tuple concatenated with the signature. The second component is the list
of adapter-boundary events the operation issued. -/
def ReputationClient.signFeedbackAuth (c : ReputationClient) (auth : FeedbackAuth) :
    Except String (List ℕ) × List AdapterEvent :=
  match encodeFeedbackAuth auth with
  | .error e => (.error e, [])
  | .ok encoded =>
    let messageHash := keccak256 encoded
    match c.adapter.signMessage messageHash with
    | .error e => (.error e, [.signMessage messageHash])
    | .ok signature => (.ok (encoded ++ signature), [.signMessage messageHash])

/-- Parameters of `giveFeedback` (`GiveFeedbackParams`); `feedbackAuth` is
the caller-supplied signed authorization envelope. -/
structure GiveFeedbackParams where
  agentId : ℤ
  score : ℚ
  tag1 : Option String
  tag2 : Option String
  feedbackUri : Option String
  feedbackHash : Option (List ℕ)
  feedbackAuth : List ℕ
deriving DecidableEq

/-- The argument list `giveFeedback` submits to the registry contract. -/
def giveFeedbackArgs (p : GiveFeedbackParams) : List EthArg :=
  [.int p.agentId, .num p.score,
   .bytes (match p.tag1 with | some t => ethersId t | none => zeroHash),
   .bytes (match p.tag2 with | some t => ethersId t | none => zeroHash),
   .str (match p.feedbackUri with | some u => u | none => ""),
   .bytes (match p.feedbackHash with | some h => h | none => zeroHash),
   .bytes p.feedbackAuth]

/-- `ReputationClient.giveFeedback`: validate the score locally, convert
the optional parameters, and submit one `giveFeedback` transaction through
the adapter. The second component is the list of adapter-boundary events
the operation issued. -/
def ReputationClient.giveFeedback (c : ReputationClient) (p : GiveFeedbackParams) :
    Except String TxRef × List AdapterEvent :=
  if p.score < 0 ∨ p.score > 100 then
    (.error "Score MUST be between 0 and 100", [])
  else
    ((c.adapter.send c.contractAddress "giveFeedback" (giveFeedbackArgs p)).map
      (fun r => ⟨r.txHash⟩),
     [.send c.contractAddress "giveFeedback" (giveFeedbackArgs p)])

/-- `ReputationClient.getLastIndex`: one read-only contract call returning
the last feedback index for `(agentId, clientAddress)`. -/
def ReputationClient.getLastIndex (c : ReputationClient) (agentId : ℤ)
    (clientAddress : ℤ) : ℤ × List AdapterEvent :=
  (c.adapter.call c.contractAddress "getLastIndex" [.int agentId, .addr clientAddress],
   [.call c.contractAddress "getLastIndex" [.int agentId, .addr clientAddress]])

theorem abiWord_length {t : AbiType} {v : ℤ} {w : List ℕ}
    (h : abiWord t v = some w) : w.length = 32 := by
  cases t <;> simp only [abiWord] at h <;> split at h <;> cases h <;>
    exact beBytes_length 32 _

theorem abiWords_flatten_length : ∀ {fields : List (AbiType × ℤ)}
    {ws : List (List ℕ)}, abiWords fields = some ws →
    ws.flatten.length = 32 * fields.length := by
  intro fields
  induction fields with
  | nil =>
    intro ws h
    simp only [abiWords, Option.some.injEq] at h
    simp [← h]
  | cons f rest ih =>
    intro ws h
    simp only [abiWords] at h
    cases hw : abiWord f.1 f.2 with
    | none => rw [hw] at h; simp at h
    | some w =>
      rw [hw] at h
      cases hws : abiWords rest with
      | none => rw [hws] at h; simp at h
      | some ws2 =>
        rw [hws] at h
        simp only [Option.some.injEq] at h
        subst h
        simp only [List.flatten_cons, List.length_append, List.length_cons,
          abiWord_length hw, ih hws]
        ring

theorem abiEncode_ok_length {fields : List (AbiType × ℤ)} {e : List ℕ}
    (h : abiEncode fields = .ok e) : e.length = 32 * fields.length := by
  rw [abiEncode] at h
  split at h
  · cases h
    exact abiWords_flatten_length (by assumption)
  · cases h

theorem encodeFeedbackAuth_ok_length {auth : FeedbackAuth} {e : List ℕ}
    (h : encodeFeedbackAuth auth = .ok e) : e.length = 224 := by
  rw [encodeFeedbackAuth] at h
  rw [abiEncode_ok_length h]
  rfl

/-- What `signFeedbackAuth` computes once the encoder has succeeded and a
signer is present. -/
theorem signFeedbackAuth_of_ok {c : ReputationClient} {auth : FeedbackAuth}
    {e : List ℕ} (henc : encodeFeedbackAuth auth = .ok e)
    (hs : c.adapter.hasSigner = true) :
    c.signFeedbackAuth auth =
      (.ok (e ++ c.adapter.rawSign (eip191Bytes (keccak256 e))),
       [.signMessage (keccak256 e)]) := by
  simp [ReputationClient.signFeedbackAuth, henc, EthersAdapter.signMessage, hs]

theorem take_append_of_length {α : Type} (l₁ l₂ : List α) {n : ℕ}
    (h : l₁.length = n) : (l₁ ++ l₂).take n = l₁ ∧ (l₁ ++ l₂).drop n = l₂ := by
  subst h
  exact ⟨List.take_left l₁ l₂, List.drop_left l₁ l₂⟩

/-- Two well-formed records with equal canonical encodings are equal:
each of the seven 32-byte slots determines its field. -/
theorem encBytes_inj {a b : FeedbackAuth} (ha : a.wellFormed) (hb : b.wellFormed)
    (h : encBytes a = encBytes b) : a = b := by
  obtain ⟨a1, a2, a3, a4, a5, a6, a7⟩ := a
  obtain ⟨b1, b2, b3, b4, b5, b6, b7⟩ := b
  obtain ⟨⟨h1a, h1b⟩, ⟨h2a, h2b⟩, ⟨h3a, h3b⟩, ⟨h4a, h4b⟩, ⟨h5a, h5b⟩, ⟨h6a, h6b⟩,
    ⟨h7a, h7b⟩⟩ := ha
  obtain ⟨⟨g1a, g1b⟩, ⟨g2a, g2b⟩, ⟨g3a, g3b⟩, ⟨g4a, g4b⟩, ⟨g5a, g5b⟩, ⟨g6a, g6b⟩,
    ⟨g7a, g7b⟩⟩ := hb
  unfold encBytes at h
  simp only at *
  obtain ⟨h, e7⟩ := List.append_inj' h (by rw [beBytes_length, beBytes_length])
  obtain ⟨h, e6⟩ := List.append_inj' h (by rw [beBytes_length, beBytes_length])
  obtain ⟨h, e5⟩ := List.append_inj' h (by rw [beBytes_length, beBytes_length])
  obtain ⟨h, e4⟩ := List.append_inj' h (by rw [beBytes_length, beBytes_length])
  obtain ⟨h, e3⟩ := List.append_inj' h (by rw [beBytes_length, beBytes_length])
  obtain ⟨e1, e2⟩ := List.append_inj' h (by rw [beBytes_length, beBytes_length])
  have f1 := beBytes_inj (by norm_num at h1b ⊢; omega) (by norm_num at g1b ⊢; omega) e1
  have f2 := beBytes_inj (by norm_num at h2b ⊢; omega) (by norm_num at g2b ⊢; omega) e2
  have f3 := beBytes_inj (by norm_num at h3b ⊢; omega) (by norm_num at g3b ⊢; omega) e3
  have f4 := beBytes_inj (by norm_num at h4b ⊢; omega) (by norm_num at g4b ⊢; omega) e4
  have f5 := beBytes_inj (by norm_num at h5b ⊢; omega) (by norm_num at g5b ⊢; omega) e5
  have f6 := beBytes_inj (by norm_num at h6b ⊢; omega) (by norm_num at g6b ⊢; omega) e6
  have f7 := beBytes_inj (by norm_num at h7b ⊢; omega) (by norm_num at g7b ⊢; omega) e7
  simp only [FeedbackAuth.mk.injEq]
  refine ⟨by omega, by omega, by omega, by omega, by omega, by omega, by omega⟩

/-- Concrete fixtures used by the witness and counterexample theorems. -/
def sampleAdapter : EthersAdapter :=
  ⟨true, fun _ => List.replicate 65 1, fun _ _ _ => 0, fun _ _ _ => ⟨"0xabc", 1⟩⟩

def sampleClient : ReputationClient := ⟨sampleAdapter, 10, 11⟩

def sampleAdapterB : EthersAdapter :=
  ⟨true, fun _ => List.replicate 65 2, fun _ _ _ => 0, fun _ _ _ => ⟨"0xdef", 2⟩⟩

def sampleClientB : ReputationClient := ⟨sampleAdapterB, 12, 11⟩

def noSignerAdapter : EthersAdapter :=
  ⟨false, fun _ => [], fun _ _ _ => 0, fun _ _ _ => ⟨"", 0⟩⟩

def noSignerClient : ReputationClient := ⟨noSignerAdapter, 10, 11⟩

def sampleAuth : FeedbackAuth := ⟨1, 2, 3, 4, 5, 11, 6⟩

def sampleAuthB : FeedbackAuth := ⟨1, 2, 4, 4, 5, 11, 6⟩

def authAtU64Boundary : FeedbackAuth := ⟨1, 2, 2 ^ 64, 4, 5, 11, 6⟩

def sampleParams (score : ℚ) : GiveFeedbackParams :=
  ⟨1, score, none, none, none, none, List.replicate 289 7⟩

/-- C1: for every record accepted by the ABI encoder and every signature
the signing capability returns, `signFeedbackAuth` produces exactly the
canonical encoding immediately followed by the raw signature bytes; the
canonical encoding always has the fixed length 7 * 32 = 224, so the
envelope splits at that boundary into the encoding and the signature. -/
theorem spec2proof_C1 (c : ReputationClient) (auth : FeedbackAuth) (e : List ℕ)
    (henc : encodeFeedbackAuth auth = .ok e) (hs : c.adapter.hasSigner = true) :
    e.length = 224 ∧
    (c.signFeedbackAuth auth).1 =
      .ok (e ++ c.adapter.rawSign (eip191Bytes (keccak256 e))) ∧
    (e ++ c.adapter.rawSign (eip191Bytes (keccak256 e))).take 224 = e ∧
    (e ++ c.adapter.rawSign (eip191Bytes (keccak256 e))).drop 224 =
      c.adapter.rawSign (eip191Bytes (keccak256 e)) := by
  have hlen := encodeFeedbackAuth_ok_length henc
  have hsig := signFeedbackAuth_of_ok henc hs
  obtain ⟨ht, hd⟩ :=
    take_append_of_length e (c.adapter.rawSign (eip191Bytes (keccak256 e))) hlen
  exact ⟨hlen, by rw [hsig], ht, hd⟩

theorem spec2proof_C1_witness :
    (encBytes sampleAuth).length = 224 ∧
    (sampleClient.signFeedbackAuth sampleAuth).1 =
      .ok (encBytes sampleAuth ++ sampleClient.adapter.rawSign
        (eip191Bytes (keccak256 (encBytes sampleAuth)))) ∧
    (encBytes sampleAuth ++ sampleClient.adapter.rawSign
      (eip191Bytes (keccak256 (encBytes sampleAuth)))).take 224 = encBytes sampleAuth ∧
    (encBytes sampleAuth ++ sampleClient.adapter.rawSign
      (eip191Bytes (keccak256 (encBytes sampleAuth)))).drop 224 =
      sampleClient.adapter.rawSign (eip191Bytes (keccak256 (encBytes sampleAuth))) :=
  spec2proof_C1 sampleClient sampleAuth (encBytes sampleAuth)
    (encodeFeedbackAuth_eq_ok sampleAuth (by decide)) rfl

/-- C3: the digest is the keccak-256 hash (32 bytes) of the canonical
encoding, exactly those digest bytes are handed to the adapter's
personal-message signing operation (which applies the EIP-191 prefix
before the raw signing primitive), and the signing step issues no
registry read or write call. -/
theorem spec2proof_C3 (c : ReputationClient) (auth : FeedbackAuth) (e : List ℕ)
    (henc : encodeFeedbackAuth auth = .ok e) (hs : c.adapter.hasSigner = true) :
    (keccak256 e).length = 32 ∧
    (c.signFeedbackAuth auth).2 = [.signMessage (keccak256 e)] ∧
    (c.signFeedbackAuth auth).1 =
      .ok (e ++ c.adapter.rawSign (eip191Bytes (keccak256 e))) ∧
    ∀ ev ∈ (c.signFeedbackAuth auth).2, ∃ m, ev = .signMessage m := by
  have hsig := signFeedbackAuth_of_ok henc hs
  refine ⟨keccak256_length e, by rw [hsig], by rw [hsig], ?_⟩
  rw [hsig]
  intro ev hev
  simp only [List.mem_singleton] at hev
  exact ⟨keccak256 e, hev⟩

theorem spec2proof_C3_witness :
    (keccak256 (encBytes sampleAuth)).length = 32 ∧
    (sampleClient.signFeedbackAuth sampleAuth).2 =
      [.signMessage (keccak256 (encBytes sampleAuth))] :=
  ⟨(spec2proof_C3 sampleClient sampleAuth (encBytes sampleAuth)
      (encodeFeedbackAuth_eq_ok sampleAuth (by decide)) rfl).1,
   (spec2proof_C3 sampleClient sampleAuth (encBytes sampleAuth)
      (encodeFeedbackAuth_eq_ok sampleAuth (by decide)) rfl).2.1⟩

/-- C7: the encoding and digest are functions of the record alone: two
runs against different signing capabilities sign the identical digest and
produce envelopes with an identical 224-byte encoding prefix, so the only
nondeterminism in `signFeedbackAuth` comes from the injected capability. -/
theorem spec2proof_C7 (c1 c2 : ReputationClient) (auth : FeedbackAuth) (e : List ℕ)
    (henc : encodeFeedbackAuth auth = .ok e)
    (h1 : c1.adapter.hasSigner = true) (h2 : c2.adapter.hasSigner = true) :
    (c1.signFeedbackAuth auth).2 = (c2.signFeedbackAuth auth).2 ∧
    (c1.signFeedbackAuth auth).2 = [.signMessage (keccak256 e)] ∧
    (c1.signFeedbackAuth auth).1.map (fun env => env.take 224) =
      (c2.signFeedbackAuth auth).1.map (fun env => env.take 224) := by
  have hs1 := signFeedbackAuth_of_ok henc h1
  have hs2 := signFeedbackAuth_of_ok henc h2
  have hlen := encodeFeedbackAuth_ok_length henc
  refine ⟨by rw [hs1, hs2], by rw [hs1], ?_⟩
  rw [hs1, hs2]
  simp only [Except.map]
  rw [(take_append_of_length e (c1.adapter.rawSign (eip191Bytes (keccak256 e))) hlen).1,
    (take_append_of_length e (c2.adapter.rawSign (eip191Bytes (keccak256 e))) hlen).1]

theorem spec2proof_C7_witness :
    (sampleClient.signFeedbackAuth sampleAuth).2 =
      (sampleClientB.signFeedbackAuth sampleAuth).2 ∧
    (sampleClient.signFeedbackAuth sampleAuth).1.map (fun env => env.take 224) =
      (sampleClientB.signFeedbackAuth sampleAuth).1.map (fun env => env.take 224) :=
  ⟨(spec2proof_C7 sampleClient sampleClientB sampleAuth (encBytes sampleAuth)
      (encodeFeedbackAuth_eq_ok sampleAuth (by decide)) rfl rfl).1,
   (spec2proof_C7 sampleClient sampleClientB sampleAuth (encBytes sampleAuth)
      (encodeFeedbackAuth_eq_ok sampleAuth (by decide)) rfl rfl).2.2⟩

/-- C8: `createFeedbackAuth` fills `identityRegistry` from the address the
client was constructed with and copies every other field from the
corresponding argument unchanged. -/
theorem spec2proof_C8 (c : ReputationClient) (agentId clientAddress indexLimit
    expiry chainId signerAddress : ℤ) :
    (c.createFeedbackAuth agentId clientAddress indexLimit expiry chainId
      signerAddress).identityRegistry = c.identityRegistryAddress ∧
    (c.createFeedbackAuth agentId clientAddress indexLimit expiry chainId
      signerAddress).agentId = agentId ∧
    (c.createFeedbackAuth agentId clientAddress indexLimit expiry chainId
      signerAddress).clientAddress = clientAddress ∧
    (c.createFeedbackAuth agentId clientAddress indexLimit expiry chainId
      signerAddress).indexLimit = indexLimit ∧
    (c.createFeedbackAuth agentId clientAddress indexLimit expiry chainId
      signerAddress).expiry = expiry ∧
    (c.createFeedbackAuth agentId clientAddress indexLimit expiry chainId
      signerAddress).chainId = chainId ∧
    (c.createFeedbackAuth agentId clientAddress indexLimit expiry chainId
      signerAddress).signerAddress = signerAddress :=
  ⟨rfl, rfl, rfl, rfl, rfl, rfl, rfl⟩

/-- C9: without a signing capability, `signFeedbackAuth` always propagates
an error and never returns an envelope; when the record itself is
encodable the error is exactly the adapter's missing-signer error. -/
theorem spec2proof_C9 (c : ReputationClient) (hs : c.adapter.hasSigner = false) :
    (∀ auth, ∃ msg, (c.signFeedbackAuth auth).1 = .error msg) ∧
    (∀ auth, auth.wellFormed →
      (c.signFeedbackAuth auth).1 = .error "Signer required for signing") := by
  constructor
  · intro auth
    cases henc : encodeFeedbackAuth auth with
    | error s =>
      exact ⟨s, by simp [ReputationClient.signFeedbackAuth, henc]⟩
    | ok e =>
      refine ⟨"Signer required for signing", ?_⟩
      simp [ReputationClient.signFeedbackAuth, henc, EthersAdapter.signMessage, hs]
  · intro auth hwf
    simp [ReputationClient.signFeedbackAuth, encodeFeedbackAuth_eq_ok auth hwf,
      EthersAdapter.signMessage, hs]

theorem spec2proof_C9_witness :
    (noSignerClient.signFeedbackAuth sampleAuth).1 =
      .error "Signer required for signing" :=
  (spec2proof_C9 noSignerClient rfl).2 sampleAuth (by decide)

/-- C2 (amended): the code declares the third tuple slot as `uint256`, not
the spec's `uint64`; whenever `indexLimit` fits in 64 bits the two
encodings coincide byte for byte (both pad the value into a 32-byte slot),
so the envelope equals the uint64-tuple encoding followed by the
signature exactly in that range, while for `indexLimit ≥ 2^64` the code
still encodes where a uint64 encoder rejects. -/
theorem spec2proof_C2 (c : ReputationClient) (auth : FeedbackAuth)
    (h0 : 0 ≤ auth.indexLimit) (h64 : auth.indexLimit < 2 ^ 64) :
    encodeFeedbackAuthU64 auth = encodeFeedbackAuth auth ∧
    (∀ e, encodeFeedbackAuth auth = .ok e → c.adapter.hasSigner = true →
      (c.signFeedbackAuth auth).1 =
        .ok (e ++ c.adapter.rawSign (eip191Bytes (keccak256 e)))) := by
  constructor
  · rw [encodeFeedbackAuthU64, encodeFeedbackAuth, abiEncode, abiEncode]
    have habi : abiWords [(.uint256, auth.agentId), (.address, auth.clientAddress),
        (.uint64, auth.indexLimit), (.uint256, auth.expiry), (.uint256, auth.chainId),
        (.address, auth.identityRegistry), (.address, auth.signerAddress)] =
        abiWords [(.uint256, auth.agentId), (.address, auth.clientAddress),
        (.uint256, auth.indexLimit), (.uint256, auth.expiry), (.uint256, auth.chainId),
        (.address, auth.identityRegistry), (.address, auth.signerAddress)] := by
      simp only [abiWords]
      rw [abiWord_uint64_eq_uint256 h0 h64]
    rw [habi]
  · intro e henc hs
    rw [signFeedbackAuth_of_ok henc hs]

theorem spec2proof_C2_witness :
    encodeFeedbackAuthU64 sampleAuth = encodeFeedbackAuth sampleAuth :=
  (spec2proof_C2 sampleClient sampleAuth (by decide) (by decide)).1

/-- C2 counterexample: at `indexLimit = 2^64` the spec's uint64-tuple
encoding does not exist (the encoder rejects the value) while the code's
`signFeedbackAuth` still produces an envelope, so the envelope is not the
uint64-tuple encoding followed by the signature for every record. -/
theorem spec2proof_C2_cex :
    encodeFeedbackAuthU64 authAtU64Boundary = .error "value out-of-bounds" ∧
    (sampleClient.signFeedbackAuth authAtU64Boundary).1 =
      .ok (encBytes authAtU64Boundary ++ sampleClient.adapter.rawSign
        (eip191Bytes (keccak256 (encBytes authAtU64Boundary)))) := by
  constructor
  · rfl
  · rw [signFeedbackAuth_of_ok
      (encodeFeedbackAuth_eq_ok authAtU64Boundary (by decide)) rfl]

/-- C4 (amended): `giveFeedback` does not orchestrate the authorization
sequence: after the local score check it issues exactly one registry write
carrying the caller-supplied pre-signed envelope, with no index query and
no signing of its own; the last-used-index query is the separate
`getLastIndex` operation, which callers compose with `createFeedbackAuth`
and `signFeedbackAuth` before calling `giveFeedback`. -/
theorem spec2proof_C4 (c : ReputationClient) (p : GiveFeedbackParams)
    (h0 : 0 ≤ p.score) (h1 : p.score ≤ 100) :
    (c.giveFeedback p).2 =
      [.send c.contractAddress "giveFeedback" (giveFeedbackArgs p)] ∧
    (∀ ca fn args, AdapterEvent.call ca fn args ∉ (c.giveFeedback p).2) ∧
    (∀ m, AdapterEvent.signMessage m ∉ (c.giveFeedback p).2) ∧
    (giveFeedbackArgs p).getLast? = some (.bytes p.feedbackAuth) ∧
    (∀ agentId clientAddress, (c.getLastIndex agentId clientAddress).2 =
      [.call c.contractAddress "getLastIndex" [.int agentId, .addr clientAddress]]) := by
  have hcond : ¬(p.score < 0 ∨ p.score > 100) := by
    push_neg
    exact ⟨h0, h1⟩
  have hgf : c.giveFeedback p =
      ((c.adapter.send c.contractAddress "giveFeedback" (giveFeedbackArgs p)).map
        (fun r => ⟨r.txHash⟩),
       [.send c.contractAddress "giveFeedback" (giveFeedbackArgs p)]) := by
    rw [ReputationClient.giveFeedback, if_neg hcond]
  refine ⟨by rw [hgf], ?_, ?_, rfl, fun agentId clientAddress => rfl⟩
  · intro ca fn args hmem
    rw [hgf] at hmem
    simp at hmem
  · intro m hmem
    rw [hgf] at hmem
    simp at hmem

theorem spec2proof_C4_witness :
    (sampleClient.giveFeedback (sampleParams 95)).2 =
      [.send 10 "giveFeedback" (giveFeedbackArgs (sampleParams 95))] :=
  (spec2proof_C4 sampleClient (sampleParams 95) (by norm_num [sampleParams])
    (by norm_num [sampleParams])).1

/-- C4 counterexample: on a concrete valid submission the event trace of
`giveFeedback` is a single registry write; it contains no read of the
last-used index and no signing request, so the operation did not first
query the registry, build the record and sign it as claimed. -/
theorem spec2proof_C4_cex :
    (sampleClient.giveFeedback (sampleParams 95)).2 =
      [.send 10 "giveFeedback" (giveFeedbackArgs (sampleParams 95))] ∧
    ((sampleClient.giveFeedback (sampleParams 95)).2.countP
      (fun ev => match ev with
        | .call _ _ _ => true
        | _ => false)) = 0 ∧
    ((sampleClient.giveFeedback (sampleParams 95)).2.countP
      (fun ev => match ev with
        | .signMessage _ => true
        | _ => false)) = 0 :=
  ⟨rfl, rfl, rfl⟩

/-- C5: `giveFeedback` raises the local score-range error with no adapter
interaction exactly when the integer score is below 0 or above 100, and
in-range scores (0 and 100 included) are submitted to the registry. -/
theorem spec2proof_C5 (c : ReputationClient) (p : GiveFeedbackParams) (s : ℤ)
    (hscore : p.score = (s : ℚ)) :
    (((c.giveFeedback p).1 = .error "Score MUST be between 0 and 100" ∧
        (c.giveFeedback p).2 = []) ↔ (s < 0 ∨ 100 < s)) ∧
    (0 ≤ s → s ≤ 100 → (c.giveFeedback p).2 =
      [.send c.contractAddress "giveFeedback" (giveFeedbackArgs p)]) := by
  have hiff : (p.score < 0 ∨ p.score > 100) ↔ (s < 0 ∨ 100 < s) := by
    rw [hscore]
    constructor
    · rintro (h | h)
      · exact Or.inl (by exact_mod_cast h)
      · exact Or.inr (by exact_mod_cast h)
    · rintro (h | h)
      · exact Or.inl (by exact_mod_cast h)
      · exact Or.inr (by exact_mod_cast h)
  by_cases hc : s < 0 ∨ 100 < s
  · have hgf : c.giveFeedback p = (.error "Score MUST be between 0 and 100", []) := by
      rw [ReputationClient.giveFeedback, if_pos (hiff.mpr hc)]
    refine ⟨⟨fun _ => hc, fun _ => ⟨by rw [hgf], by rw [hgf]⟩⟩, fun hs0 hs100 => ?_⟩
    exact absurd hc (by omega)
  · have hgf : c.giveFeedback p =
        ((c.adapter.send c.contractAddress "giveFeedback" (giveFeedbackArgs p)).map
          (fun r => ⟨r.txHash⟩),
         [.send c.contractAddress "giveFeedback" (giveFeedbackArgs p)]) := by
      rw [ReputationClient.giveFeedback, if_neg (fun hx => hc (hiff.mp hx))]
    refine ⟨⟨fun hx => ?_, fun hx => absurd hx hc⟩, fun _ _ => by rw [hgf]⟩
    rw [hgf] at hx
    exact absurd hx.2 (by simp)

theorem spec2proof_C5_witness :
    (sampleClient.giveFeedback (sampleParams (-1))).1 =
      .error "Score MUST be between 0 and 100" ∧
    (sampleClient.giveFeedback (sampleParams (-1))).2 = [] ∧
    (sampleClient.giveFeedback (sampleParams 0)).2 =
      [.send 10 "giveFeedback" (giveFeedbackArgs (sampleParams 0))] ∧
    (sampleClient.giveFeedback (sampleParams 100)).2 =
      [.send 10 "giveFeedback" (giveFeedbackArgs (sampleParams 100))] := by
  have hneg := (spec2proof_C5 sampleClient (sampleParams (-1)) (-1)
    (by norm_num [sampleParams])).1.mpr (by decide)
  have hzero := (spec2proof_C5 sampleClient (sampleParams 0) 0
    (by norm_num [sampleParams])).2 (by decide) (by decide)
  have hcent := (spec2proof_C5 sampleClient (sampleParams 100) 100
    (by norm_num [sampleParams])).2 (by decide) (by decide)
  exact ⟨hneg.1, hneg.2, hzero, hcent⟩

/-- C6: two distinct well-formed records have distinct canonical
encodings, and equal digests for them would exhibit a keccak-256
collision, so under collision-freeness on these inputs the digests
differ. -/
theorem spec2proof_C6 (a b : FeedbackAuth) (ha : a.wellFormed) (hb : b.wellFormed)
    (hne : a ≠ b) :
    encodeFeedbackAuth a ≠ encodeFeedbackAuth b ∧
    encBytes a ≠ encBytes b ∧
    (keccak256 (encBytes a) = keccak256 (encBytes b) →
      ∃ x y, x ≠ y ∧ keccak256 x = keccak256 y) := by
  have hbytes : encBytes a ≠ encBytes b := fun h => hne (encBytes_inj ha hb h)
  refine ⟨fun h => ?_, hbytes, fun hcol => ⟨encBytes a, encBytes b, hbytes, hcol⟩⟩
  rw [encodeFeedbackAuth_eq_ok a ha, encodeFeedbackAuth_eq_ok b hb] at h
  exact hbytes (by injection h)

theorem spec2proof_C6_witness :
    encodeFeedbackAuth sampleAuth ≠ encodeFeedbackAuth sampleAuthB :=
  (spec2proof_C6 sampleAuth sampleAuthB (by decide) (by decide) (by decide)).1

/-- C10: every score in [0, 100], integral or not, passes the local check
and is forwarded unchanged as the second argument of the registry
submission; integrality is never checked client-side. -/
theorem spec2proof_C10 (c : ReputationClient) (p : GiveFeedbackParams)
    (h0 : 0 ≤ p.score) (h1 : p.score ≤ 100) :
    (c.giveFeedback p).1 ≠ .error "Score MUST be between 0 and 100" ∧
    c.giveFeedback p =
      ((c.adapter.send c.contractAddress "giveFeedback" (giveFeedbackArgs p)).map
        (fun r => ⟨r.txHash⟩),
       [.send c.contractAddress "giveFeedback" (giveFeedbackArgs p)]) ∧
    (giveFeedbackArgs p)[1]? = some (.num p.score) := by
  have hcond : ¬(p.score < 0 ∨ p.score > 100) := by
    push_neg
    exact ⟨h0, h1⟩
  have hgf : c.giveFeedback p =
      ((c.adapter.send c.contractAddress "giveFeedback" (giveFeedbackArgs p)).map
        (fun r => ⟨r.txHash⟩),
       [.send c.contractAddress "giveFeedback" (giveFeedbackArgs p)]) := by
    rw [ReputationClient.giveFeedback, if_neg hcond]
  refine ⟨?_, hgf, rfl⟩
  rw [hgf]
  cases hsig : c.adapter.hasSigner with
  | false => simp [EthersAdapter.send, hsig, Except.map]
  | true => simp [EthersAdapter.send, hsig, Except.map]

theorem spec2proof_C10_witness :
    (sampleClient.giveFeedback (sampleParams (101 / 2))).1 ≠
      .error "Score MUST be between 0 and 100" ∧
    (giveFeedbackArgs (sampleParams (101 / 2)))[1]? = some (.num (101 / 2)) := by
  have h := spec2proof_C10 sampleClient (sampleParams (101 / 2))
    (by norm_num [sampleParams]) (by norm_num [sampleParams])
  exact ⟨h.1, h.2.2⟩

end ERC8004
